import Mathlib

/-!
# Verification of the streaming relay and YouTube edge proxy

Shallow embedding of the core of the repository:
* the AI-recommend relay route (upstream dispatcher, SSE stream transcoder,
  content extraction engine, enrichment fan-out), and
* the YouTube edge proxy (mirror discovery, stream relaying).

Model names follow the source; strings manipulated character by character are
represented as `List Char` (the `TextDecoder` streaming decode is modelled at
character granularity, since it never splits a code point across chunks).
-/

namespace Relay

/-! ## Upstream Dispatcher: model classification and token-limit clamping

Transcribed from `isReasoningModel` / `TOKEN_LIMITS` in the constants module
and the clamping block of the POST handler. -/

/-- JavaScript `hay.includes(needle)` on strings, at character level. -/
def listIncludes (hay needle : List Char) : Bool :=
  match hay with
  | [] => needle.isEmpty
  | _ :: t => needle.isPrefixOf hay || listIncludes t needle

/-- Model-name literal `'o1'`. -/
def o1Name : List Char := "o1".toList
/-- Model-name literal `'o3'`. -/
def o3Name : List Char := "o3".toList
/-- Model-name literal `'o4'`. -/
def o4Name : List Char := "o4".toList
/-- Model-name literal `'gpt-5'`. -/
def gpt5Name : List Char := "gpt-5".toList
/-- Model-name literal `'gpt-4'`. -/
def gpt4Name : List Char := "gpt-4".toList

/-- `REASONING_MODEL_PREFIXES.some(p => modelName.startsWith(p)) || modelName.includes('gpt-5')`. -/
def isReasoningModel (modelName : List Char) : Bool :=
  (o1Name.isPrefixOf modelName || o3Name.isPrefixOf modelName ||
   o4Name.isPrefixOf modelName) || listIncludes modelName gpt5Name

/-- `TOKEN_LIMITS` constants. -/
def GPT5_MIN : Nat := 2000
def GPT5_MAX : Nat := 128000
def O3_O4_MIN : Nat := 1500
def O3_O4_MAX : Nat := 100000
def REASONING_MIN : Nat := 1000
def NORMAL_MIN : Nat := 500
def GPT4_MAX : Nat := 32768

/-- Token-limit clamping applied to `tokenLimit` before the upstream call,
transcribed from the `if (useMaxCompletionTokens) ... else ...` block. -/
def clampTokenLimit (requestModel : List Char) (tokenLimit : Nat) : Nat :=
  if isReasoningModel requestModel then
    if listIncludes requestModel gpt5Name then
      min (max tokenLimit GPT5_MIN) GPT5_MAX
    else if o3Name.isPrefixOf requestModel || o4Name.isPrefixOf requestModel then
      min (max tokenLimit O3_O4_MIN) O3_O4_MAX
    else
      max tokenLimit REASONING_MIN
  else
    let t1 := max tokenLimit NORMAL_MIN
    if listIncludes requestModel gpt4Name then min t1 GPT4_MAX else t1

/-- The token-related fields of the upstream request body: which limit field is
set and whether `temperature` is included. -/
structure RequestTokenFields where
  maxTokens : Option Nat
  maxCompletionTokens : Option Nat
  hasTemperature : Bool
  deriving Repr, DecidableEq

/-- The request-body construction for the token and temperature parameters:
reasoning models get `max_completion_tokens` and no `temperature`; other models
get `max_tokens` and a `temperature`. -/
def buildTokenFields (requestModel : List Char) (tokenLimit : Nat) : RequestTokenFields :=
  let limit := clampTokenLimit requestModel tokenLimit
  if isReasoningModel requestModel then
    ⟨none, some limit, false⟩
  else
    ⟨some limit, none, true⟩

/-! ## SSE Stream Transcoder

Transcribed from the `ReadableStream start` loop of the streaming branch:
the buffer accumulates decoded text, is split on `'\n'`, the last piece is
retained as the new buffer, and each complete line is trimmed and processed.
`JSON.parse` plus the `parsed.choices?.[0]?.delta?.content` projection is a
platform primitive and is abstracted as a `parse` oracle: `none` models a
parse exception, `some none` a missing `content` field, `some (some s)` a
string `content` field `s` (JS truthiness makes the empty string fall through
with the missing field). -/

/-- ASCII fragment of the JavaScript `String.prototype.trim` whitespace set. -/
def isWs (c : Char) : Bool :=
  c = ' ' || c = '\t' || c = '\n' || c = '\r' || c = '\x0b' || c = '\x0c'

/-- JavaScript `line.trim()`. -/
def trimChars (l : List Char) : List Char :=
  ((l.dropWhile isWs).reverse.dropWhile isWs).reverse

/-- JavaScript `buffer.split('\n')`: always a non-empty list of
newline-free pieces. -/
def splitNl : List Char → List (List Char)
  | [] => [[]]
  | c :: cs =>
      if c = '\n' then [] :: splitNl cs
      else
        match splitNl cs with
        | [] => [[c]]
        | p :: ps => (c :: p) :: ps

/-- Prepends `x` onto the first piece of a split (helper for reasoning about
`splitNl` of an append). -/
def glueHead (x : List Char) : List (List Char) → List (List Char)
  | [] => [x]
  | p :: ps => (x ++ p) :: ps

/-- The events the streaming response can enqueue, by their `type` tag. -/
inductive OutEvent where
  | contentDelta (s : List Char)
  | videoLinksEvt
  | youtubeVideosEvt
  | recommendationsEvt
  | doneEvt
  deriving Repr, DecidableEq

/-- Accumulated transcoder output: (`fullContent`, forwarded events). -/
abbrev TAcc := List Char × List OutEvent

/-- The literal `'data: '` marker. -/
def dataMarker : List Char := "data: ".toList

/-- The literal `'data: [DONE]'` sentinel line. -/
def dataDoneLine : List Char := "data: [DONE]".toList

/-- Processing of one complete line of the upstream SSE stream: blank lines
and the done sentinel are skipped; `data: ` lines are parsed and a truthy
delta content is appended to `fullContent` and forwarded as a content event;
everything else (parse failures included) is skipped. -/
def processLine (parse : List Char → Option (Option (List Char)))
    (acc : TAcc) (line : List Char) : TAcc :=
  let t := trimChars line
  if t = [] then acc
  else if t = dataDoneLine then acc
  else if dataMarker.isPrefixOf t then
    match parse (t.drop 6) with
    | none => acc
    | some none => acc
    | some (some s) =>
        if s = [] then acc
        else (acc.1 ++ s, acc.2 ++ [OutEvent.contentDelta s])
  else acc

/-- Transcoder state: (`buffer`, accumulated output). -/
abbrev TState := List Char × TAcc

/-- One `reader.read()` delivery: append the chunk to the buffer, split on
newline, keep the trailing unterminated fragment as the new buffer and process
the complete lines. -/
def feedChunk (parse : List Char → Option (Option (List Char)))
    (st : TState) (chunk : List Char) : TState :=
  let pieces := splitNl (st.1 ++ chunk)
  (pieces.getLastD [], pieces.dropLast.foldl (processLine parse) st.2)

/-- The whole read loop over a sequence of chunk deliveries, from the empty
buffer and empty accumulator. -/
def runStream (parse : List Char → Option (Option (List Char)))
    (chunks : List (List Char)) : TState :=
  chunks.foldl (feedChunk parse) ([], ([], []))

/-! ## Content Extraction: video-link detection (`detectVideoLinks`)

The pattern
`(?:https?:\/\/)?(?:www\.)?(?:youtube\.com\/watch\?v=|youtu\.be\/|youtube\.com\/embed\/|youtube\.com\/v\/)([a-zA-Z0-9_-]+)`
is executed globally.  At any one start position at most one decomposition
into scheme/www/host can match (the alternatives differ at their first
character), so the backtracking attempt is the deterministic search below. -/

/-- The character class `[a-zA-Z0-9_-]` of the video-id capture group. -/
def isIdChar (c : Char) : Bool :=
  ('a' ≤ c && c ≤ 'z') || ('A' ≤ c && c ≤ 'Z') || ('0' ≤ c && c ≤ '9') ||
    c = '_' || c = '-'

/-- A captured link: the full matched text and the captured id. -/
structure VideoLink where
  originalUrl : List Char
  videoId : List Char
  deriving Repr, DecidableEq

/-- The concatenated scheme/www/host alternatives in the order the regex
engine tries them. -/
def urlForms : List (List Char) :=
  (["https://", "http://", ""].map String.toList).flatMap (fun sch =>
    (["www.", ""].map String.toList).flatMap (fun www =>
      (["youtube.com/watch?v=", "youtu.be/", "youtube.com/embed/",
        "youtube.com/v/"].map String.toList).map (fun host =>
        sch ++ www ++ host)))

/-- One anchored attempt with candidate prefix `pre`: on success returns the
captured link and the input remaining after the match. -/
def tryPre (pre l : List Char) : Option (VideoLink × List Char) :=
  if pre.isPrefixOf l then
    let rest := l.drop pre.length
    let vid := rest.takeWhile isIdChar
    if vid.isEmpty then none
    else some (⟨pre ++ vid, vid⟩, rest.drop vid.length)
  else none

/-- A regex match attempt anchored at the head of `l`. -/
def tryMatchAt (l : List Char) : Option (VideoLink × List Char) :=
  urlForms.findSome? (fun pre => tryPre pre l)

/-- The `exec` loop of `detectVideoLinks`: advance one character past a
failed position, continue after the end of each match.  The fuel (initially
the input length) bounds the recursion and is never exhausted, because every
step consumes at least one character. -/
def scanLinks : Nat → List Char → List VideoLink
  | 0, _ => []
  | _, [] => []
  | fuel + 1, c :: cs =>
    match tryMatchAt (c :: cs) with
    | some (lk, rest) => lk :: scanLinks fuel rest
    | none => scanLinks fuel cs

/-- `detectVideoLinks` applied to the latest user message. -/
def detectVideoLinks (content : List Char) : List VideoLink :=
  scanLinks content.length content

/-! ## Content Extraction: movie lines (`extractRecommendations`) -/

/-- One extracted movie recommendation. -/
structure MovieRec where
  title : List Char
  year : List Char
  genre : List Char
  description : List Char
  deriving Repr, DecidableEq

/-- `\d`. -/
def isDigit (c : Char) : Bool := '0' ≤ c && c ≤ '9'

/-- The fixed fallback description. -/
def placeholderDesc : List Char := "AI推荐影片".toList

/-- The movie-line pattern `《([^》]+)》\s*\((\d{4})\)\s*\[([^\]]+)\]\s*-\s*(.*)`
anchored at the head of the input.  Every greedy atom's follow set is
disjoint from the characters it consumes, so the backtracking match is this
deterministic parse; `.` stops at the line terminators `'\n'`/`'\r'`. -/
def movieMatchAt (l : List Char) :
    Option (List Char × List Char × List Char × List Char) :=
  match l with
  | '《' :: r1 =>
    let title := r1.takeWhile (fun c => c ≠ '》')
    if title.isEmpty then none
    else
      match r1.drop title.length with
      | '》' :: r2 =>
        match r2.dropWhile isWs with
        | '(' :: r4 =>
          let year := r4.take 4
          if year.length = 4 && year.all isDigit then
            match r4.drop 4 with
            | ')' :: r5 =>
              match r5.dropWhile isWs with
              | '[' :: r6 =>
                let genre := r6.takeWhile (fun c => c ≠ ']')
                if genre.isEmpty then none
                else
                  match r6.drop genre.length with
                  | ']' :: r7 =>
                    match r7.dropWhile isWs with
                    | '-' :: r8 =>
                      let desc := (r8.dropWhile isWs).takeWhile
                        (fun c => c ≠ '\n' && c ≠ '\r')
                      some (title, year, genre, desc)
                    | _ => none
                  | _ => none
              | _ => none
            | _ => none
          else none
        | _ => none
      | _ => none
  | _ => none

/-- `line.match(moviePattern)`: the leftmost match. -/
def movieSearch : List Char →
    Option (List Char × List Char × List Char × List Char)
  | [] => none
  | c :: cs =>
    match movieMatchAt (c :: cs) with
    | some r => some r
    | none => movieSearch cs

/-- The pushed entry for one matched line: fields are trimmed and an empty
description is replaced by the fixed placeholder. -/
def mkMovieRec (t y g d : List Char) : MovieRec :=
  ⟨trimChars t, trimChars y, trimChars g,
    if trimChars d = [] then placeholderDesc else trimChars d⟩

/-- Match attempt plus entry construction for one line. -/
def movieLineEntry (l : List Char) : Option MovieRec :=
  (movieSearch l).map (fun r => mkMovieRec r.1 r.2.1 r.2.2.1 r.2.2.2)

/-- The `for` loop of `extractRecommendations`, with its break at 4 entries. -/
def extractRecLoop : List (List Char) → List MovieRec → List MovieRec
  | [], acc => acc
  | l :: ls, acc =>
    if 4 ≤ acc.length then acc
    else
      match movieLineEntry l with
      | some r => extractRecLoop ls (acc ++ [r])
      | none => extractRecLoop ls acc

/-- `extractRecommendations` over the reply text. -/
def extractRecommendations (content : List Char) : List MovieRec :=
  extractRecLoop (splitNl content) []

/-! ## Content Extraction: YouTube search keywords -/

/-- The global matches of `【([^】]+)】`, scanned left to right (the fuel,
initially the input length, bounds the loop; each step consumes at least one
character). -/
def scanBrackets : Nat → List Char → List (List Char)
  | 0, _ => []
  | _, [] => []
  | fuel + 1, c :: cs =>
    if c = '【' then
      let inner := cs.takeWhile (fun x => x ≠ '】')
      match cs.drop inner.length with
      | '】' :: rest2 =>
        if inner.isEmpty then scanBrackets fuel cs
        else inner :: scanBrackets fuel rest2
      | _ => scanBrackets fuel cs
    else scanBrackets fuel cs

/-- `extractYouTubeSearchKeywords`: the loop stops after 4 keywords; each
pushed keyword is trimmed. -/
def extractYouTubeSearchKeywords (content : List Char) : List (List Char) :=
  ((scanBrackets content.length content).map trimChars).take 4

/-! ## Enrichment fan-out: `handleVideoLinkParsing`

The oEmbed fetch for one link is abstracted as an oracle from the video id
to its outcome: a 2xx response carrying optional `title`/`author_name`
fields, a non-2xx response, or a thrown error (network failure or invalid
JSON). -/

/-- Result entry of `handleVideoLinkParsing`; JS fields absent from a given
push site are `none`. -/
structure ParsedVideo where
  videoId : String
  originalUrl : String
  title : String
  channelName : Option String
  thumbnail : Option String
  playable : Bool
  embedUrl : Option String
  error : Option String
  deriving Repr, DecidableEq

/-- Outcome of the oEmbed metadata fetch for one link. -/
inductive OembedOutcome where
  | ok (title author : Option String)
  | httpError
  | netError
  deriving Repr, DecidableEq

/-- JavaScript `a || b` for an optional string against a default. -/
def jsOr (o : Option String) (d : String) : String :=
  match o with
  | some s => if s = "" then d else s
  | none => d

def defaultTitle : String := "直接播放的YouTube视频"
def defaultChannel : String := "未知频道"
def failedTitle : String := "解析失败的视频"
def failedErrorMsg : String := "无法获取视频信息"

/-- The deterministic thumbnail URL derived from the id. -/
def thumbnailUrl (videoId : String) : String :=
  "https://img.youtube.com/vi/" ++ videoId ++ "/mqdefault.jpg"

/-- The embed URL derived from the id. -/
def embedUrlOf (videoId : String) : String :=
  "https://www.youtube.com/embed/" ++ videoId ++ "?autoplay=1&rel=0"

/-- The entry pushed for one link, by fetch outcome, matching the three push
sites of the source. -/
def parseOneLink (outcome : OembedOutcome) (videoId originalUrl : String) :
    ParsedVideo :=
  match outcome with
  | .ok t a =>
      ⟨videoId, originalUrl, jsOr t defaultTitle, some (jsOr a defaultChannel),
        some (thumbnailUrl videoId), true, some (embedUrlOf videoId), none⟩
  | .httpError =>
      ⟨videoId, originalUrl, defaultTitle, some defaultChannel,
        some (thumbnailUrl videoId), true, some (embedUrlOf videoId), none⟩
  | .netError =>
      ⟨videoId, originalUrl, failedTitle, none, none, false, none,
        some failedErrorMsg⟩

/-- The `for` loop of `handleVideoLinkParsing`, over (videoId, originalUrl)
pairs. -/
def handleVideoLinkParsing (lookup : String → OembedOutcome) :
    List (String × String) → List ParsedVideo → List ParsedVideo
  | [], acc => acc
  | (vid, url) :: rest, acc =>
      handleVideoLinkParsing lookup rest (acc ++ [parseOneLink (lookup vid) vid url])

/-- `handleVideoLinkParsing` from the empty accumulator. -/
def parseVideoLinks (lookup : String → OembedOutcome)
    (links : List (String × String)) : List ParsedVideo :=
  handleVideoLinkParsing lookup links []

/-! ## End-of-stream classification and response assembly -/

/-- `content.includes('【') && content.includes('】')`. -/
def hasCjkBrackets (content : List Char) : Bool :=
  listIncludes content ['【'] && listIncludes content ['】']

/-- The structured events enqueued at end of stream, before `[DONE]`:
nothing when the accumulated content is empty; otherwise a `video_links`
event when the user message contained links, followed by either a
`youtube_videos` event (YouTube enabled with an API key and the reply
contains the full-width bracket pair) or, failing that, a `recommendations`
event when at least one movie line was extracted. -/
def finalStructuredEvents (hasVideoLinks youtubeOn : Bool)
    (fullContent : List Char) : List OutEvent :=
  if fullContent = [] then []
  else
    (if hasVideoLinks then [OutEvent.videoLinksEvt] else []) ++
    (if youtubeOn && hasCjkBrackets fullContent then [OutEvent.youtubeVideosEvt]
     else if 0 < (extractRecommendations fullContent).length then
       [OutEvent.recommendationsEvt]
     else [])

/-- How the response stream terminates. -/
inductive Termination where
  | closed
  | errored
  deriving Repr, DecidableEq

/-- The whole `ReadableStream start` body: `upstream = none` models the
absent-body path (`controller.close()` with no events); otherwise the chunks
are fed through the transcoder and the boolean records whether the
`reader.read()` loop threw (`controller.error`, terminating without
`[DONE]`); on a clean end the structured events and the `[DONE]` sentinel
follow the forwarded deltas. -/
def runStart (hasVideoLinks youtubeOn : Bool)
    (parse : List Char → Option (Option (List Char)))
    (upstream : Option (List (List Char) × Bool)) :
    List OutEvent × Termination :=
  match upstream with
  | none => ([], Termination.closed)
  | some (chunks, readErr) =>
    let st := runStream parse chunks
    if readErr then (st.2.2, Termination.errored)
    else (st.2.2 ++ finalStructuredEvents hasVideoLinks youtubeOn st.2.1 ++
      [OutEvent.doneEvt], Termination.closed)

/-- One result of `searchYouTubeVideos`, as pushed by the search loop. -/
structure YtVideo where
  id : String
  title : String
  description : String
  thumbnail : Option String
  channelTitle : String
  publishedAt : String
  deriving Repr, DecidableEq

/-- The structured fields of the non-streaming JSON response: at most one of
the three payload fields is set; `typeTag` is the `type` discriminator when
one is included. -/
structure NonStreamPayload where
  recommendations : Option (List MovieRec)
  youtubeVideos : Option (List YtVideo)
  videoLinks : Option (List ParsedVideo)
  typeTag : Option String
  deriving Repr, DecidableEq

/-- The three return sites of the non-streaming branch, in source order:
video-link parsing when the user message contained links (the parsing
function cannot throw, so its catch never falls through); the YouTube branch
when enabled with a key and the reply contains the bracket pair; the
movie-recommendation fallback otherwise, whose response carries no `type`
field.  The search oracle abstracts `searchYouTubeVideos`. -/
def buildNonStreamPayload (hasVideoLinks youtubeOn : Bool)
    (lookup : String → OembedOutcome) (links : List (String × String))
    (search : List (List Char) → List YtVideo)
    (aiContent : List Char) : NonStreamPayload :=
  if hasVideoLinks then
    ⟨none, none, some (parseVideoLinks lookup links), some "video_link_parse"⟩
  else if youtubeOn && hasCjkBrackets aiContent then
    ⟨none, some (search (extractYouTubeSearchKeywords aiContent)), none,
      some "youtube_recommend"⟩
  else
    ⟨some (extractRecommendations aiContent), none, none, none⟩

/-- Number of payload fields set in a non-streaming response. -/
def someCount (p : NonStreamPayload) : Nat :=
  (if p.recommendations.isSome then 1 else 0) +
  (if p.youtubeVideos.isSome then 1 else 0) +
  (if p.videoLinks.isSome then 1 else 0)

/-- Whether an event is one of the structured (non-delta, non-done) events. -/
def isStructured (e : OutEvent) : Bool :=
  match e with
  | .contentDelta _ => false
  | .doneEvt => false
  | _ => true

/-- Whether an event is the youtube-videos or recommendations event. -/
def isYtOrRec (e : OutEvent) : Bool :=
  match e with
  | .youtubeVideosEvt => true
  | .recommendationsEvt => true
  | _ => false

end Relay

namespace Proxy

/-! ## YouTube Edge Proxy

Transcribed from the proxy route: `INVIDIOUS_INSTANCES`,
`getWorkingInstance`, the id validation of the GET handler, and the stream
branch.  Network probes and fetches are abstracted as oracles. -/

/-- The static ordered candidate list. -/
def INVIDIOUS_INSTANCES : List String :=
  ["https://inv.nadeko.net", "https://invidious.nerdvpn.de",
   "https://invidious.jing.rocks", "https://invidious.privacyredirect.com",
   "https://yt.artemislena.eu"]

/-- `getWorkingInstance`: sequential probing, first success wins; a thrown
fetch and a non-ok response both count as failure. -/
def getWorkingInstance (probe : String → Bool) : List String → Option String
  | [] => none
  | i :: rest => if probe i then some i else getWorkingInstance probe rest

/-- The candidates actually probed by `getWorkingInstance`, in order. -/
def probedInstances (probe : String → Bool) : List String → List String
  | [] => []
  | i :: rest => if probe i then [i] else i :: probedInstances probe rest

/-- `/^[a-zA-Z0-9_-]{11}$/.test(videoId)`. -/
def validVideoId (s : String) : Bool :=
  s.length = 11 && s.toList.all Relay.isIdChar

/-- The validation gate of the proxy GET handler: the request proceeds only
when the `v` parameter is present and matches the pattern. -/
def proxyIdGate (v : Option String) : Bool :=
  match v with
  | none => false
  | some s => validVideoId s

/-- The info-mode flow after id validation: (status, number of
`getVideoInfo` fetches).  All mirrors down yields 503 before any metadata
fetch; a metadata failure surfaces through the catch-all 500. -/
def proxyInfoFlow (probe : String → Bool) (meta : String → Bool) : Nat × Nat :=
  match getWorkingInstance probe INVIDIOUS_INSTANCES with
  | none => (503, 0)
  | some inst => if meta inst then (200, 1) else (500, 1)

/-- Headers sent with the upstream media fetch: the fixed User-Agent plus
the inbound Range header forwarded verbatim when present. -/
def buildUpstreamRequestHeaders (range : Option String) : List (String × String) :=
  [("User-Agent", "Mozilla/5.0 (Windows NT 10.0; Win64; x64) AppleWebKit/537.36")] ++
    match range with
    | some r => [("Range", r)]
    | none => []

/-- The upstream media response fields the handler inspects. -/
structure StreamUpstream where
  status : Nat
  contentType : Option String
  contentLength : Option String
  contentRange : Option String
  acceptRanges : Option String
  deriving Repr, DecidableEq

/-- `Response.ok`. -/
def upstreamOk (status : Nat) : Bool := 200 ≤ status && status ≤ 299

/-- JS `format.type || 'video/mp4'`. -/
def contentTypeOf (formatType : Option String) : String :=
  match formatType with
  | some s => if s = "" then "video/mp4" else s
  | none => "video/mp4"

/-- The response headers built for the relayed stream, in source order. -/
def buildStreamHeaders (formatType : Option String) (up : StreamUpstream) :
    List (String × String) :=
  [("Content-Type", contentTypeOf formatType),
   ("Access-Control-Allow-Origin", "*"),
   ("Access-Control-Allow-Methods", "GET, HEAD, OPTIONS"),
   ("Access-Control-Allow-Headers", "Range"),
   ("Accept-Ranges", "bytes")] ++
  (match up.contentLength with
   | some v => [("Content-Length", v)]
   | none => []) ++
  (match up.contentRange with
   | some v => [("Content-Range", v)]
   | none => [])

/-- Result of the stream branch. -/
inductive ProxyStreamResult where
  | jsonError (status : Nat)
  | streamOut (status : Nat) (headers : List (String × String))
  deriving Repr, DecidableEq

/-- The tail of the stream branch: a status that is neither ok nor 206 is
surfaced as a JSON error carrying the upstream status; otherwise the body is
relayed with the upstream status and the built headers. -/
def proxyStreamRespond (formatType : Option String) (up : StreamUpstream) :
    ProxyStreamResult :=
  if ¬(upstreamOk up.status = true) ∧ up.status ≠ 206 then
    ProxyStreamResult.jsonError up.status
  else
    ProxyStreamResult.streamOut up.status (buildStreamHeaders formatType up)

/-- First-match header lookup. -/
def lookupHeader (hs : List (String × String)) (k : String) : Option String :=
  (hs.find? (fun h => h.1 = k)).map (fun h => h.2)

end Proxy

/-! ## Claim C3 -/

/-- C3: for every model name and requested token limit, the transmitted limit
lies in the documented bounds of the model's class (gpt-5 in [2000,128000],
o3/o4 in [1500,100000], other reasoning models at least 1000, standard models
at least 500 and gpt-4-family standard models at most 32768), reasoning models
use `max_completion_tokens` without `temperature`, and standard models use
`max_tokens` with `temperature`. -/
theorem c3_theorem (m : List Char) (t : Nat) :
    (Relay.listIncludes m Relay.gpt5Name = true →
      Relay.GPT5_MIN ≤ Relay.clampTokenLimit m t ∧
      Relay.clampTokenLimit m t ≤ Relay.GPT5_MAX) ∧
    (Relay.listIncludes m Relay.gpt5Name = false →
      (Relay.o3Name.isPrefixOf m || Relay.o4Name.isPrefixOf m) = true →
      Relay.O3_O4_MIN ≤ Relay.clampTokenLimit m t ∧
      Relay.clampTokenLimit m t ≤ Relay.O3_O4_MAX) ∧
    (Relay.isReasoningModel m = true →
      Relay.REASONING_MIN ≤ Relay.clampTokenLimit m t) ∧
    (Relay.isReasoningModel m = false →
      Relay.NORMAL_MIN ≤ Relay.clampTokenLimit m t) ∧
    (Relay.isReasoningModel m = false →
      Relay.listIncludes m Relay.gpt4Name = true →
      Relay.clampTokenLimit m t ≤ Relay.GPT4_MAX) ∧
    (Relay.isReasoningModel m = true →
      Relay.buildTokenFields m t =
        ⟨none, some (Relay.clampTokenLimit m t), false⟩) ∧
    (Relay.isReasoningModel m = false →
      Relay.buildTokenFields m t =
        ⟨some (Relay.clampTokenLimit m t), none, true⟩) := by
  have hmin : Relay.GPT5_MIN ≤ Relay.GPT5_MAX := by decide
  refine ⟨?_, ?_, ?_, ?_, ?_, ?_, ?_⟩
  · intro hg
    have hr : Relay.isReasoningModel m = true := by
      simp only [Relay.isReasoningModel, Bool.or_eq_true]
      exact Or.inr hg
    simp only [Relay.clampTokenLimit, hr, hg, if_true]
    constructor
    · exact le_min (le_max_right _ _) (by decide)
    · exact min_le_right _ _
  · intro hg ho
    have hr : Relay.isReasoningModel m = true := by
      have h2 := (Bool.or_eq_true _ _).mp ho
      simp only [Relay.isReasoningModel, Bool.or_eq_true]
      tauto
    simp only [Relay.clampTokenLimit, hr, hg, ho, if_true, Bool.false_eq_true, if_false]
    constructor
    · exact le_min (le_max_right _ _) (by decide)
    · exact min_le_right _ _
  · intro hr
    simp only [Relay.clampTokenLimit, hr, if_true]
    have h1000max : Relay.REASONING_MIN ≤ Relay.GPT5_MIN := by decide
    have h1000o : Relay.REASONING_MIN ≤ Relay.O3_O4_MIN := by decide
    split
    · exact le_trans (le_min (le_trans h1000max (le_max_right _ _)) (by decide)) (le_refl _)
    · split
      · exact le_min (le_trans h1000o (le_max_right _ _)) (by decide)
      · exact le_max_right _ _
  · intro hr
    simp only [Relay.clampTokenLimit, hr, Bool.false_eq_true, if_false]
    split
    · exact le_min (le_max_right _ _) (by decide)
    · exact le_max_right _ _
  · intro hr hg
    simp only [Relay.clampTokenLimit, hr, hg, Bool.false_eq_true, if_false, if_true]
    exact min_le_right _ _
  · intro hr
    simp only [Relay.buildTokenFields, hr, if_true]
  · intro hr
    simp only [Relay.buildTokenFields, hr, Bool.false_eq_true, if_false]

/-- Witness for C3 at concrete models: a gpt-5 model, an o3 model, another
reasoning model, a gpt-4 standard model and a plain standard model. -/
theorem c3_witness :
    (Relay.GPT5_MIN ≤ Relay.clampTokenLimit "gpt-5".toList 1 ∧
      Relay.clampTokenLimit "gpt-5".toList 1 ≤ Relay.GPT5_MAX) ∧
    (Relay.O3_O4_MIN ≤ Relay.clampTokenLimit "o3-mini".toList 999999 ∧
      Relay.clampTokenLimit "o3-mini".toList 999999 ≤ Relay.O3_O4_MAX) ∧
    Relay.REASONING_MIN ≤ Relay.clampTokenLimit "o1-preview".toList 1 ∧
    Relay.NORMAL_MIN ≤ Relay.clampTokenLimit "gpt-4o".toList 1 ∧
    Relay.clampTokenLimit "gpt-4o".toList 999999 ≤ Relay.GPT4_MAX ∧
    Relay.buildTokenFields "o3-mini".toList 1 =
      ⟨none, some (Relay.clampTokenLimit "o3-mini".toList 1), false⟩ ∧
    Relay.buildTokenFields "deepseek-chat".toList 1 =
      ⟨some (Relay.clampTokenLimit "deepseek-chat".toList 1), none, true⟩ := by
  have h5 := c3_theorem "gpt-5".toList 1
  have h3a := c3_theorem "o3-mini".toList 999999
  have h1 := c3_theorem "o1-preview".toList 1
  have h4a := c3_theorem "gpt-4o".toList 1
  have h4b := c3_theorem "gpt-4o".toList 999999
  have h3b := c3_theorem "o3-mini".toList 1
  have hd := c3_theorem "deepseek-chat".toList 1
  exact ⟨h5.1 (by decide), h3a.2.1 (by decide) (by decide), h1.2.2.1 (by decide),
    h4a.2.2.2.1 (by decide), h4b.2.2.2.2.1 (by decide) (by decide),
    h3b.2.2.2.2.2.1 (by decide), hd.2.2.2.2.2.2 (by decide)⟩

/-! ## Transcoder lemmas and Claims C4, C10 -/

theorem splitNl_ne_nil (l : List Char) : Relay.splitNl l ≠ [] := by
  induction l with
  | nil => simp [Relay.splitNl]
  | cons c cs ih =>
    by_cases hc : c = '\n'
    · simp [Relay.splitNl, hc]
    · cases h : Relay.splitNl cs with
      | nil => exact absurd h ih
      | cons p ps => simp [Relay.splitNl, hc, h]

theorem splitNl_no_nl (l : List Char) : ∀ p ∈ Relay.splitNl l, '\n' ∉ p := by
  induction l with
  | nil =>
    intro p hp
    simp [Relay.splitNl] at hp
    subst hp; simp
  | cons c cs ih =>
    intro p hp
    by_cases hc : c = '\n'
    · simp only [Relay.splitNl, hc, if_pos rfl] at hp
      rcases List.mem_cons.mp hp with hp | hp
      · subst hp; simp
      · exact ih p hp
    · cases h : Relay.splitNl cs with
      | nil => exact absurd h (splitNl_ne_nil cs)
      | cons q qs =>
        simp only [Relay.splitNl, hc, if_neg hc, h] at hp
        rcases List.mem_cons.mp hp with hp | hp
        · subst hp
          intro hmem
          rcases List.mem_cons.mp hmem with h1 | h1
          · exact hc h1.symm
          · exact ih q (by rw [h]; exact List.mem_cons_self _ _) h1
        · exact ih p (by rw [h]; exact List.mem_cons_of_mem _ hp)

theorem splitNl_of_no_nl (l : List Char) (h : '\n' ∉ l) : Relay.splitNl l = [l] := by
  induction l with
  | nil => rfl
  | cons c cs ih =>
    have hc : c ≠ '\n' := fun e => h (e ▸ List.mem_cons_self c cs)
    have hcs : '\n' ∉ cs := fun m => h (List.mem_cons_of_mem _ m)
    simp [Relay.splitNl, hc, ih hcs]

theorem getLastD_append_cons {α : Type} (xs : List α) (y : α) (ys : List α) (d : α) :
    (xs ++ y :: ys).getLastD d = (y :: ys).getLastD d := by
  rw [List.getLastD_eq_getLast?, List.getLastD_eq_getLast?, List.getLast?_append]
  have hs : (y :: ys).getLast?.isSome := by
    rw [List.getLast?_isSome]; simp
  obtain ⟨v, hv⟩ := Option.isSome_iff_exists.mp hs
  rw [hv]
  rfl

theorem getLastD_mem {α : Type} (l : List α) (d : α) (h : l ≠ []) : l.getLastD d ∈ l := by
  rw [List.getLastD_eq_getLast?]
  have hs : l.getLast?.isSome := by rwa [List.getLast?_isSome]
  obtain ⟨v, hv⟩ := Option.isSome_iff_exists.mp hs
  rw [hv]
  exact List.mem_of_getLast?_eq_some hv

theorem splitNl_append (s t : List Char) :
    Relay.splitNl (s ++ t) =
      (Relay.splitNl s).dropLast ++
        Relay.glueHead ((Relay.splitNl s).getLastD []) (Relay.splitNl t) := by
  induction s with
  | nil =>
    cases h : Relay.splitNl t with
    | nil => exact absurd h (splitNl_ne_nil t)
    | cons q qs => simp [Relay.splitNl, Relay.glueHead, h]
  | cons c s ih =>
    by_cases hc : c = '\n'
    · subst hc
      cases hP : Relay.splitNl s with
      | nil => exact absurd hP (splitNl_ne_nil s)
      | cons p ps =>
        have e1 : Relay.splitNl ('\n' :: (s ++ t)) = [] :: Relay.splitNl (s ++ t) := by
          simp [Relay.splitNl]
        have e2 : Relay.splitNl ('\n' :: s) = [] :: Relay.splitNl s := by
          simp [Relay.splitNl]
        rw [List.cons_append, e1, e2, ih, hP]
        rw [List.dropLast_cons₂, List.cons_append]
        simp [List.getLastD_cons]
    · cases hP : Relay.splitNl s with
      | nil => exact absurd hP (splitNl_ne_nil s)
      | cons p ps =>
        cases hQ : Relay.splitNl t with
        | nil => exact absurd hQ (splitNl_ne_nil t)
        | cons q qs =>
          have e3 : Relay.splitNl (s ++ t) =
              (p :: ps).dropLast ++
                Relay.glueHead ((p :: ps).getLastD []) (q :: qs) := by
            rw [ih, hP, hQ]
          cases ps with
          | nil =>
            have e3' : Relay.splitNl (s ++ t) = (p ++ q) :: qs := by
              rw [e3]; simp [Relay.glueHead]
            have e4 : Relay.splitNl (c :: (s ++ t)) = (c :: (p ++ q)) :: qs := by
              simp only [Relay.splitNl, if_neg hc, e3']
            have e5 : Relay.splitNl (c :: s) = [c :: p] := by
              simp only [Relay.splitNl, if_neg hc, hP]
            rw [List.cons_append, e4, e5]
            simp [Relay.glueHead]
          | cons p2 ps2 =>
            have e3' : Relay.splitNl (s ++ t) =
                p :: ((p2 :: ps2).dropLast ++
                  Relay.glueHead ((p2 :: ps2).getLastD p) (q :: qs)) := by
              rw [e3, List.dropLast_cons₂, List.getLastD_cons, List.cons_append]
            have e4 : Relay.splitNl (c :: (s ++ t)) =
                (c :: p) :: ((p2 :: ps2).dropLast ++
                  Relay.glueHead ((p2 :: ps2).getLastD p) (q :: qs)) := by
              simp only [Relay.splitNl, if_neg hc, e3']
            have e5 : Relay.splitNl (c :: s) = (c :: p) :: p2 :: ps2 := by
              simp only [Relay.splitNl, if_neg hc, hP]
            rw [List.cons_append, e4, e5]
            rw [List.dropLast_cons₂, List.cons_append]
            simp only [List.getLastD_cons, List.getLastD_eq_getLast?]
            have hs2 : (p2 :: ps2).getLast?.isSome := by
              rw [List.getLast?_isSome]; simp
            obtain ⟨v, hv⟩ := Option.isSome_iff_exists.mp hs2
            rw [hv, List.getLast?_cons_cons, hv]
            rfl

theorem feedChunk_append (parse : List Char → Option (Option (List Char)))
    (st : Relay.TState) (a b : List Char) :
    Relay.feedChunk parse (Relay.feedChunk parse st a) b =
      Relay.feedChunk parse st (a ++ b) := by
  obtain ⟨buf, acc⟩ := st
  cases hP : Relay.splitNl (buf ++ a) with
  | nil => exact absurd hP (splitNl_ne_nil _)
  | cons p ps =>
    cases hQ : Relay.splitNl b with
    | nil => exact absurd hQ (splitNl_ne_nil _)
    | cons q qs =>
      have hlast : '\n' ∉ (p :: ps).getLastD [] := by
        have hm : (p :: ps).getLastD [] ∈ Relay.splitNl (buf ++ a) := by
          rw [hP]; exact getLastD_mem _ _ (by simp)
        exact splitNl_no_nl (buf ++ a) _ hm
      have h1 : Relay.splitNl ((p :: ps).getLastD [] ++ b) =
          ((p :: ps).getLastD [] ++ q) :: qs := by
        rw [splitNl_append, splitNl_of_no_nl _ hlast, hQ]
        simp [Relay.glueHead]
      have h2 : Relay.splitNl (buf ++ (a ++ b)) =
          (p :: ps).dropLast ++ ((p :: ps).getLastD [] ++ q) :: qs := by
        rw [← List.append_assoc, splitNl_append, hP, hQ]
        simp [Relay.glueHead]
      simp only [Relay.feedChunk, hP, h1, h2]
      refine congrArg₂ Prod.mk ?_ ?_
      · rw [getLastD_append_cons]
      · rw [List.dropLast_append_cons, List.foldl_append]

/-- C4: splitting the upstream byte sequence at arbitrary chunk boundaries
(including mid-line) yields the same final transcoder state — the same
accumulated text and the same forwarded events — as delivering the whole
sequence in a single chunk. -/
theorem c4_theorem (parse : List Char → Option (Option (List Char)))
    (chunks : List (List Char)) :
    Relay.runStream parse chunks = Relay.runStream parse [chunks.flatten] := by
  have aux : ∀ (cs : List (List Char)) (c : List Char) (st : Relay.TState),
      List.foldl (Relay.feedChunk parse) st (c :: cs) =
        Relay.feedChunk parse st (c :: cs).flatten := by
    intro cs
    induction cs with
    | nil => intro c st; simp
    | cons c2 cs ih =>
      intro c st
      rw [List.foldl_cons, ih c2 (Relay.feedChunk parse st c), feedChunk_append]
      simp
  cases chunks with
  | nil => rfl
  | cons c cs =>
    unfold Relay.runStream
    rw [aux cs c]
    simp

/-- C10: a successfully parsed SSE data line whose delta content field is
absent or is the empty string produces no content event and leaves the
accumulated text (indeed the whole accumulator) unchanged. -/
theorem c10_theorem (parse : List Char → Option (Option (List Char)))
    (acc : Relay.TAcc) (line : List Char)
    (h : parse ((Relay.trimChars line).drop 6) = some none ∨
         parse ((Relay.trimChars line).drop 6) = some (some [])) :
    Relay.processLine parse acc line = acc := by
  simp only [Relay.processLine]
  split
  · rfl
  · split
    · rfl
    · split
      · rcases h with h | h <;> simp [h]
      · rfl

/-- Witness for C10: a concrete data line whose parse yields no content
field leaves a concrete accumulator unchanged. -/
theorem c10_witness :
    Relay.processLine (fun _ => some none) (([], []) : Relay.TAcc) "data: x".toList
      = ([], []) :=
  c10_theorem (fun _ => some none) ([], []) "data: x".toList (Or.inl rfl)

/-! ## Claim C2 -/

theorem tryPre_sound (pre l : List Char) (lk : Relay.VideoLink) (rest : List Char)
    (h : Relay.tryPre pre l = some (lk, rest)) :
    lk.videoId ≠ [] ∧ lk.videoId.all Relay.isIdChar = true := by
  simp only [Relay.tryPre] at h
  split at h
  · split at h
    · exact absurd h (by simp)
    · next hvid =>
      rw [Option.some.injEq, Prod.mk.injEq] at h
      obtain ⟨hlk, hrest⟩ := h
      subst hlk
      refine ⟨?_, List.all_takeWhile⟩
      simpa using hvid
  · exact absurd h (by simp)

theorem tryMatchAt_sound (l : List Char) (lk : Relay.VideoLink) (rest : List Char)
    (h : Relay.tryMatchAt l = some (lk, rest)) :
    lk.videoId ≠ [] ∧ lk.videoId.all Relay.isIdChar = true := by
  obtain ⟨pre, hmem, hp⟩ := List.exists_of_findSome?_eq_some h
  exact tryPre_sound pre l lk rest hp

theorem scanLinks_sound (fuel : Nat) :
    ∀ (l : List Char) (lk : Relay.VideoLink), lk ∈ Relay.scanLinks fuel l →
      lk.videoId ≠ [] ∧ lk.videoId.all Relay.isIdChar = true := by
  induction fuel with
  | zero =>
    intro l lk h
    simp [Relay.scanLinks] at h
  | succ fuel ih =>
    intro l lk h
    cases l with
    | nil => simp [Relay.scanLinks] at h
    | cons c cs =>
      cases hm : Relay.tryMatchAt (c :: cs) with
      | some pr =>
        obtain ⟨lk2, rest⟩ := pr
        simp only [Relay.scanLinks, hm] at h
        rcases List.mem_cons.mp h with h1 | h1
        · subst h1
          exact tryMatchAt_sound _ _ _ hm
        · exact ih rest lk h1
      | none =>
        simp only [Relay.scanLinks, hm] at h
        exact ih cs lk h

/-- C2 (amended): every video id accepted by the proxy endpoint's validation
matches `^[A-Za-z0-9_-]{11}$` (length 11, URL-safe characters); every id
captured by the relay's `detectVideoLinks` is a non-empty run of URL-safe
characters but may have any length; and on the Scenario B input the single
captured id is exactly `dQw4w9WgXcQ`. -/
theorem c2_theorem :
    (∀ s : String, Proxy.proxyIdGate (some s) = true →
      s.length = 11 ∧ s.toList.all Relay.isIdChar = true) ∧
    (∀ (content : List Char) (lk : Relay.VideoLink),
      lk ∈ Relay.detectVideoLinks content →
      lk.videoId ≠ [] ∧ lk.videoId.all Relay.isIdChar = true) ∧
    Relay.detectVideoLinks "https://youtu.be/dQw4w9WgXcQ".toList =
      [⟨"https://youtu.be/dQw4w9WgXcQ".toList, "dQw4w9WgXcQ".toList⟩] := by
  refine ⟨?_, ?_, ?_⟩
  · intro s h
    simp only [Proxy.proxyIdGate, Proxy.validVideoId, Bool.and_eq_true,
      decide_eq_true_eq] at h
    exact ⟨h.1, h.2⟩
  · intro content lk h
    exact scanLinks_sound _ content lk h
  · decide

/-- Witness for C2 at concrete inputs: the proxy gate accepts `dQw4w9WgXcQ`
(11 characters), and the link captured from the Scenario B message has a
non-empty id. -/
theorem c2_witness :
    ("dQw4w9WgXcQ".length = 11 ∧
      "dQw4w9WgXcQ".toList.all Relay.isIdChar = true) ∧
    (⟨"https://youtu.be/dQw4w9WgXcQ".toList, "dQw4w9WgXcQ".toList⟩ :
      Relay.VideoLink).videoId ≠ [] := by
  have hth := c2_theorem
  refine ⟨hth.1 "dQw4w9WgXcQ" (by decide), ?_⟩
  exact (hth.2.1 "https://youtu.be/dQw4w9WgXcQ".toList _
    (by rw [hth.2.2]; exact List.mem_singleton.mpr rfl)).1

/-- C2 counterexample: the relay captures the 3-character id `abc` from
`https://youtu.be/abc`, so a VideoLinkResult's videoId need not match
`^[A-Za-z0-9_-]{11}$`. -/
theorem c2_counterexample :
    Relay.detectVideoLinks "https://youtu.be/abc".toList =
      [⟨"https://youtu.be/abc".toList, "abc".toList⟩] ∧
    ("abc".toList.length = 11 → False) := by
  exact ⟨by decide, by decide⟩

/-! ## Claim C9 -/

theorem extractRecLoop_eq (ls : List (List Char)) :
    ∀ acc : List Relay.MovieRec, acc.length ≤ 4 →
      Relay.extractRecLoop ls acc =
        acc ++ (ls.filterMap Relay.movieLineEntry).take (4 - acc.length) := by
  induction ls with
  | nil => intro acc h; simp [Relay.extractRecLoop]
  | cons l ls ih =>
    intro acc h
    by_cases h4 : 4 ≤ acc.length
    · have hlen : acc.length = 4 := le_antisymm h h4
      simp [Relay.extractRecLoop, h4, hlen]
    · cases hm : Relay.movieLineEntry l with
      | none =>
        simp only [Relay.extractRecLoop, if_neg h4, hm]
        rw [List.filterMap_cons_none hm]
        exact ih acc h
      | some r =>
        simp only [Relay.extractRecLoop, if_neg h4, hm]
        rw [List.filterMap_cons_some hm]
        have hlen : (acc ++ [r]).length ≤ 4 := by
          simp only [List.length_append, List.length_cons, List.length_nil]
          omega
        rw [ih (acc ++ [r]) hlen]
        have he : 4 - acc.length = (4 - (acc ++ [r]).length) + 1 := by
          simp only [List.length_append, List.length_cons, List.length_nil]
          omega
        rw [he, List.take_succ_cons, List.append_assoc, List.singleton_append]

/-- C9: movie-line extraction returns at most 4 entries, namely the first 4
per-line pattern matches in order of appearance, and a matched line whose
trimmed description is empty yields an entry carrying the fixed placeholder
description. -/
theorem c9_theorem (content : List Char) :
    (Relay.extractRecommendations content).length ≤ 4 ∧
    Relay.extractRecommendations content =
      ((Relay.splitNl content).filterMap Relay.movieLineEntry).take 4 ∧
    (∀ l t y g d, Relay.movieSearch l = some (t, y, g, d) →
      Relay.trimChars d = [] →
      Relay.movieLineEntry l =
        some ⟨Relay.trimChars t, Relay.trimChars y, Relay.trimChars g,
          Relay.placeholderDesc⟩) := by
  have h2 : Relay.extractRecommendations content =
      ((Relay.splitNl content).filterMap Relay.movieLineEntry).take 4 := by
    unfold Relay.extractRecommendations
    rw [extractRecLoop_eq _ [] (by simp)]
    simp
  refine ⟨?_, h2, ?_⟩
  · rw [h2]
    exact List.length_take_le _ _
  · intro l t y g d hm hd
    simp [Relay.movieLineEntry, hm, Relay.mkMovieRec, hd]

/-- Witness for C9: a concrete matched line with an empty description yields
the placeholder-description entry. -/
theorem c9_witness :
    Relay.movieLineEntry "《流浪地球》(2019)[科幻] - ".toList =
      some ⟨Relay.trimChars "流浪地球".toList, Relay.trimChars "2019".toList,
        Relay.trimChars "科幻".toList, Relay.placeholderDesc⟩ := by
  have hth := c9_theorem "x".toList
  exact hth.2.2 "《流浪地球》(2019)[科幻] - ".toList
    "流浪地球".toList "2019".toList "科幻".toList [] (by decide) (by decide)

/-! ## Claim C6 -/

theorem handleVideoLinkParsing_eq (lookup : String → Relay.OembedOutcome)
    (links : List (String × String)) :
    ∀ acc, Relay.handleVideoLinkParsing lookup links acc =
      acc ++ links.map (fun p => Relay.parseOneLink (lookup p.1) p.1 p.2) := by
  induction links with
  | nil => intro acc; simp [Relay.handleVideoLinkParsing]
  | cons p rest ih =>
    intro acc
    obtain ⟨vid, url⟩ := p
    simp only [Relay.handleVideoLinkParsing, List.map_cons]
    rw [ih]
    simp

/-- C6 (amended): the enrichment loop produces exactly one entry per input
link, in order; a link whose metadata lookup throws (network failure or
invalid payload) yields playable = false with the generic error marker; a
link whose lookup merely returns a non-2xx response instead yields a
fallback entry with playable = true and no error marker; and no single
failure prevents the remaining links from being processed. -/
theorem c6_theorem (lookup : String → Relay.OembedOutcome)
    (links : List (String × String)) :
    (Relay.parseVideoLinks lookup links).length = links.length ∧
    Relay.parseVideoLinks lookup links =
      links.map (fun p => Relay.parseOneLink (lookup p.1) p.1 p.2) ∧
    (∀ vid url, lookup vid = Relay.OembedOutcome.netError →
      Relay.parseOneLink (lookup vid) vid url =
        ⟨vid, url, Relay.failedTitle, none, none, false, none,
          some Relay.failedErrorMsg⟩) ∧
    (∀ vid url, lookup vid = Relay.OembedOutcome.httpError →
      (Relay.parseOneLink (lookup vid) vid url).playable = true ∧
      (Relay.parseOneLink (lookup vid) vid url).error = none) := by
  have he : Relay.parseVideoLinks lookup links =
      links.map (fun p => Relay.parseOneLink (lookup p.1) p.1 p.2) := by
    unfold Relay.parseVideoLinks
    rw [handleVideoLinkParsing_eq]
    simp
  refine ⟨by rw [he]; simp, he, ?_, ?_⟩
  · intro vid url h
    rw [h]
    rfl
  · intro vid url h
    rw [h]
    exact ⟨rfl, rfl⟩

/-- Witness for C6: a throwing lookup yields the degraded entry; a non-2xx
lookup yields a playable entry. -/
theorem c6_witness :
    Relay.parseOneLink ((fun _ => Relay.OembedOutcome.netError) "abcdefghijk")
        "abcdefghijk" "u" =
      ⟨"abcdefghijk", "u", Relay.failedTitle, none, none, false, none,
        some Relay.failedErrorMsg⟩ ∧
    (Relay.parseOneLink ((fun _ => Relay.OembedOutcome.httpError) "x") "x"
      "u2").playable = true := by
  have h1 := c6_theorem (fun _ => Relay.OembedOutcome.netError) []
  have h2 := c6_theorem (fun _ => Relay.OembedOutcome.httpError) []
  exact ⟨h1.2.2.1 "abcdefghijk" "u" rfl, (h2.2.2.2 "x" "u2" rfl).1⟩

/-- C6 counterexample: a single link whose metadata lookup returns a non-2xx
response produces an entry with playable = true and no error marker,
contradicting the claimed playable = false with a generic error marker. -/
theorem c6_counterexample :
    (Relay.parseVideoLinks (fun _ => Relay.OembedOutcome.httpError)
        [("abcdefghijk", "https://youtu.be/abcdefghijk")]).map
      (fun e => (e.playable, e.error)) = [(true, none)] := by
  decide

/-! ## Claim C1 -/

/-- C1 (amended): in non-streaming mode exactly one of the three payload
fields accompanies the response, with a `type` discriminator exactly in the
video-link and youtube cases (the movie-recommendation response has none);
in streaming mode at most one of the youtube/recommendations events is
emitted before `[DONE]`, but a `video_links` event may additionally precede
it whenever the user message contained links, so up to two structured
events can occur (at most one when no links were present). -/
theorem c1_theorem (hv yo : Bool) (lookup : String → Relay.OembedOutcome)
    (links : List (String × String))
    (search : List (List Char) → List Relay.YtVideo)
    (content fc : List Char) :
    Relay.someCount (Relay.buildNonStreamPayload hv yo lookup links search content) = 1 ∧
    (Relay.buildNonStreamPayload hv yo lookup links search content).typeTag.isSome =
      (hv || (yo && Relay.hasCjkBrackets content)) ∧
    ((Relay.finalStructuredEvents hv yo fc).filter Relay.isYtOrRec).length ≤ 1 ∧
    (Relay.finalStructuredEvents hv yo fc).length ≤ (if hv then 2 else 1) := by
  refine ⟨?_, ?_, ?_, ?_⟩
  · unfold Relay.buildNonStreamPayload
    cases hv with
    | true => rfl
    | false =>
      cases hyb : (yo && Relay.hasCjkBrackets content) with
      | true => simp [hyb, Relay.someCount]
      | false => simp [hyb, Relay.someCount]
  · unfold Relay.buildNonStreamPayload
    cases hv with
    | true => simp
    | false =>
      cases hyb : (yo && Relay.hasCjkBrackets content) with
      | true => simp [hyb]
      | false => simp [hyb]
  · by_cases hfc : fc = []
    · simp [Relay.finalStructuredEvents, hfc]
    · simp only [Relay.finalStructuredEvents, if_neg hfc]
      cases hv <;>
        cases hyb : (yo && Relay.hasCjkBrackets fc) <;>
        by_cases hrec : 0 < (Relay.extractRecommendations fc).length <;>
        simp [hyb, hrec, Relay.isYtOrRec, List.filter_append]
  · by_cases hfc : fc = []
    · simp [Relay.finalStructuredEvents, hfc]
    · simp only [Relay.finalStructuredEvents, if_neg hfc]
      cases hv <;>
        cases hyb : (yo && Relay.hasCjkBrackets fc) <;>
        by_cases hrec : 0 < (Relay.extractRecommendations fc).length <;>
        simp [hyb, hrec]

/-- C1 counterexample: a streaming run whose user message contained a video
link and whose reply contains the full-width bracket pair (YouTube enabled
with a key) emits two structured events (video_links then youtube_videos)
before `[DONE]`; and the movie-recommendation non-streaming response carries
no `type` discriminator. -/
theorem c1_counterexample :
    ((Relay.runStart true true (fun _ => some (some ['【', '】']))
        (some (["data: x\n".toList], false))).1.filter Relay.isStructured).length = 2 ∧
    (Relay.buildNonStreamPayload false false (fun _ => Relay.OembedOutcome.netError)
        [] (fun _ => []) "x".toList).typeTag = none := by
  exact ⟨by decide, rfl⟩

/-! ## Claim C5 -/

theorem processLine_events (parse : List Char → Option (Option (List Char)))
    (acc : Relay.TAcc) (line : List Char) :
    ∀ e ∈ (Relay.processLine parse acc line).2,
      e ∈ acc.2 ∨ ∃ s, e = Relay.OutEvent.contentDelta s := by
  intro e he
  simp only [Relay.processLine] at he
  split at he
  · exact Or.inl he
  · split at he
    · exact Or.inl he
    · split at he
      · split at he
        · exact Or.inl he
        · exact Or.inl he
        · split at he
          · exact Or.inl he
          · rcases List.mem_append.mp he with h1 | h1
            · exact Or.inl h1
            · exact Or.inr ⟨_, (List.mem_singleton.mp h1)⟩
      · exact Or.inl he

theorem foldl_processLine_events (parse : List Char → Option (Option (List Char)))
    (lines : List (List Char)) :
    ∀ acc : Relay.TAcc,
      (∀ e ∈ acc.2, ∃ s, e = Relay.OutEvent.contentDelta s) →
      ∀ e ∈ (lines.foldl (Relay.processLine parse) acc).2,
        ∃ s, e = Relay.OutEvent.contentDelta s := by
  induction lines with
  | nil => intro acc h; exact h
  | cons l ls ih =>
    intro acc h
    apply ih
    intro e he
    rcases processLine_events parse acc l e he with h1 | h1
    · exact h e h1
    · exact h1

theorem runStream_events (parse : List Char → Option (Option (List Char)))
    (chunks : List (List Char)) :
    ∀ e ∈ (Relay.runStream parse chunks).2.2,
      ∃ s, e = Relay.OutEvent.contentDelta s := by
  suffices haux : ∀ st : Relay.TState,
      (∀ e ∈ st.2.2, ∃ s, e = Relay.OutEvent.contentDelta s) →
      ∀ e ∈ (chunks.foldl (Relay.feedChunk parse) st).2.2,
        ∃ s, e = Relay.OutEvent.contentDelta s by
    apply haux
    simp
  induction chunks with
  | nil => intro st h; exact h
  | cons c cs ih =>
    intro st h
    apply ih
    intro e he
    simp only [Relay.feedChunk] at he
    exact foldl_processLine_events parse _ st.2 h e he

/-- C5 (amended): whenever the upstream body exists and the read loop
completes without a transport error, the stream closes with the `[DONE]`
sentinel as its final event; a transport error terminates the stream via
`controller.error` with no `[DONE]` event ever emitted; and when the
upstream body is absent the stream closes with no events at all. -/
theorem c5_theorem (hv yo : Bool) (parse : List Char → Option (Option (List Char)))
    (chunks : List (List Char)) :
    (Relay.runStart hv yo parse (some (chunks, false))).2 = Relay.Termination.closed ∧
    (Relay.runStart hv yo parse (some (chunks, false))).1.getLast? =
      some Relay.OutEvent.doneEvt ∧
    (Relay.runStart hv yo parse (some (chunks, true))).2 = Relay.Termination.errored ∧
    Relay.OutEvent.doneEvt ∉ (Relay.runStart hv yo parse (some (chunks, true))).1 ∧
    Relay.runStart hv yo parse none = ([], Relay.Termination.closed) := by
  refine ⟨rfl, ?_, rfl, ?_, rfl⟩
  · simp only [Relay.runStart, Bool.false_eq_true, if_false]
    rw [List.getLast?_concat]
  · intro hmem
    simp only [Relay.runStart, if_true] at hmem
    obtain ⟨s, hs⟩ := runStream_events parse chunks _ hmem
    exact Relay.OutEvent.noConfusion hs

/-- Witness for C5 at a concrete run: a clean two-chunk stream ends with the
`[DONE]` event and closes. -/
theorem c5_witness :
    (Relay.runStart false false (fun _ => some (some ['a']))
        (some (["data: x".toList, "\n".toList], false))).1.getLast? =
      some Relay.OutEvent.doneEvt ∧
    (Relay.runStart false false (fun _ => some (some ['a']))
        (some (["data: x".toList, "\n".toList], false))).2 =
      Relay.Termination.closed := by
  have hth := c5_theorem false false (fun _ => some (some ['a']))
    ["data: x".toList, "\n".toList]
  exact ⟨hth.2.1, hth.1⟩

/-- C5 counterexample: on the transport-error path the stream terminates
(via `controller.error`) with no `[DONE]` event, and on the absent-body path
it closes with no events at all — so not every terminating execution path
ends with the `data: [DONE]` line. -/
theorem c5_counterexample :
    (Relay.runStart false false (fun _ => none) (some ([], true))).2 =
      Relay.Termination.errored ∧
    (Relay.runStart false false (fun _ => none) (some ([], true))).1 = [] ∧
    Relay.runStart false false (fun _ => none) none =
      ([], Relay.Termination.closed) := by
  exact ⟨rfl, rfl, rfl⟩

/-! ## Claim C7 -/

/-- C7 (amended): the inbound Range header is forwarded verbatim to the
upstream media fetch; the upstream's status code (ok or 206) and its
Content-Length and Content-Range headers are relayed unmodified and CORS
headers are unconditionally attached; but the response Content-Type is taken
from the stored format descriptor (defaulting to video/mp4), not from the
upstream response, and Accept-Ranges is always set to `bytes` regardless of
the upstream's own header. -/
theorem c7_theorem (r : String) (ft : Option String) (up : Proxy.StreamUpstream) :
    Proxy.lookupHeader (Proxy.buildUpstreamRequestHeaders (some r)) "Range" = some r ∧
    Proxy.lookupHeader (Proxy.buildUpstreamRequestHeaders none) "Range" = none ∧
    (Proxy.upstreamOk up.status = true ∨ up.status = 206 →
      Proxy.proxyStreamRespond ft up =
        Proxy.ProxyStreamResult.streamOut up.status (Proxy.buildStreamHeaders ft up)) ∧
    (Proxy.upstreamOk up.status = false → up.status ≠ 206 →
      Proxy.proxyStreamRespond ft up = Proxy.ProxyStreamResult.jsonError up.status) ∧
    Proxy.lookupHeader (Proxy.buildStreamHeaders ft up) "Content-Length" =
      up.contentLength ∧
    Proxy.lookupHeader (Proxy.buildStreamHeaders ft up) "Content-Range" =
      up.contentRange ∧
    Proxy.lookupHeader (Proxy.buildStreamHeaders ft up) "Content-Type" =
      some (Proxy.contentTypeOf ft) ∧
    Proxy.lookupHeader (Proxy.buildStreamHeaders ft up) "Accept-Ranges" =
      some "bytes" ∧
    Proxy.lookupHeader (Proxy.buildStreamHeaders ft up)
      "Access-Control-Allow-Origin" = some "*" := by
  obtain ⟨st, ct, cl, cr, ar⟩ := up
  refine ⟨rfl, rfl, ?_, ?_, ?_, ?_, ?_, ?_, ?_⟩
  · intro h
    unfold Proxy.proxyStreamRespond
    rw [if_neg]
    rcases h with h | h
    · exact fun hc => hc.1 h
    · exact fun hc => hc.2 h
  · intro h1 h2
    unfold Proxy.proxyStreamRespond
    rw [if_pos ⟨by simp [h1], h2⟩]
  · cases cl <;> cases cr <;> rfl
  · cases cl <;> cases cr <;> rfl
  · cases cl <;> cases cr <;> rfl
  · cases cl <;> cases cr <;> rfl
  · cases cl <;> cases cr <;> rfl

/-- Witness for C7: a `Range: bytes=100-199` request header is forwarded
verbatim, and a 206 upstream answer is relayed with status 206, its
Content-Range intact and CORS attached. -/
theorem c7_witness :
    Proxy.lookupHeader (Proxy.buildUpstreamRequestHeaders (some "bytes=100-199"))
      "Range" = some "bytes=100-199" ∧
    Proxy.proxyStreamRespond none
        ⟨206, some "video/webm", some "100", some "bytes 100-199/1000", some "bytes"⟩ =
      Proxy.ProxyStreamResult.streamOut 206
        (Proxy.buildStreamHeaders none
          ⟨206, some "video/webm", some "100", some "bytes 100-199/1000", some "bytes"⟩) ∧
    Proxy.lookupHeader
        (Proxy.buildStreamHeaders none
          ⟨206, some "video/webm", some "100", some "bytes 100-199/1000", some "bytes"⟩)
        "Content-Range" = some "bytes 100-199/1000" := by
  have hth := c7_theorem "bytes=100-199" none
    ⟨206, some "video/webm", some "100", some "bytes 100-199/1000", some "bytes"⟩
  exact ⟨hth.1, hth.2.2.1 (Or.inr rfl), hth.2.2.2.2.2.1⟩

/-- C7 counterexample: the upstream's Content-Type (`audio/webm`) and
Accept-Ranges (`none`) headers are not relayed: the response carries the
format descriptor's type (here `text/plain`) and the constant `bytes`. -/
theorem c7_counterexample :
    Proxy.lookupHeader (Proxy.buildStreamHeaders (some "text/plain")
        ⟨200, some "audio/webm", none, none, some "none"⟩) "Content-Type" =
      some "text/plain" ∧
    (some "text/plain" : Option String) ≠ some "audio/webm" ∧
    Proxy.lookupHeader (Proxy.buildStreamHeaders (some "text/plain")
        ⟨200, some "audio/webm", none, none, some "none"⟩) "Accept-Ranges" =
      some "bytes" ∧
    (some "bytes" : Option String) ≠ some "none" := by
  refine ⟨rfl, by decide, rfl, by decide⟩

/-! ## Claim C8 -/

theorem getWorkingInstance_all_fail (probe : String → Bool) :
    ∀ l : List String, (∀ i ∈ l, probe i = false) →
      Proxy.getWorkingInstance probe l = none ∧
      Proxy.probedInstances probe l = l := by
  intro l
  induction l with
  | nil => intro _; exact ⟨rfl, rfl⟩
  | cons a rest ih =>
    intro h
    have ha : probe a = false := h a (List.mem_cons_self _ _)
    have hr := ih (fun i hi => h i (List.mem_cons_of_mem _ hi))
    constructor
    · simp [Proxy.getWorkingInstance, ha, hr.1]
    · simp [Proxy.probedInstances, ha, hr.2]

/-- C8: mirror discovery probes the static candidate list sequentially and
returns the first candidate whose liveness probe succeeds, probing exactly
the failing candidates before it plus itself and never any candidate after
it; and when every candidate fails, the proxy responds 503 having performed
zero metadata fetches beyond the liveness probes. -/
theorem c8_theorem (probe : String → Bool) (meta : String → Bool)
    (l1 l2 : List String) (x : String) :
    ((∀ y ∈ l1, probe y = false) → probe x = true →
      Proxy.getWorkingInstance probe (l1 ++ x :: l2) = some x ∧
      Proxy.probedInstances probe (l1 ++ x :: l2) = l1 ++ [x]) ∧
    ((∀ i ∈ Proxy.INVIDIOUS_INSTANCES, probe i = false) →
      Proxy.proxyInfoFlow probe meta = (503, 0) ∧
      Proxy.probedInstances probe Proxy.INVIDIOUS_INSTANCES =
        Proxy.INVIDIOUS_INSTANCES) := by
  constructor
  · induction l1 with
    | nil =>
      intro _ hx
      constructor
      · simp [Proxy.getWorkingInstance, hx]
      · simp [Proxy.probedInstances, hx]
    | cons a rest ih =>
      intro hfail hx
      have ha : probe a = false := hfail a (List.mem_cons_self _ _)
      have hr := ih (fun y hy => hfail y (List.mem_cons_of_mem _ hy)) hx
      constructor
      · simp only [List.cons_append, Proxy.getWorkingInstance, ha,
          Bool.false_eq_true, if_false]
        exact hr.1
      · simp only [List.cons_append, Proxy.probedInstances, ha,
          Bool.false_eq_true, if_false]
        exact congrArg (List.cons a) hr.2
  · intro h
    have hg := getWorkingInstance_all_fail probe Proxy.INVIDIOUS_INSTANCES h
    constructor
    · simp [Proxy.proxyInfoFlow, hg.1]
    · exact hg.2

/-- Witness for C8: with a probe succeeding only on the second of three
candidates, discovery returns it having probed exactly the first two; with
an all-failing probe over the static list, the flow yields status 503 with
zero metadata fetches. -/
theorem c8_witness :
    (Proxy.getWorkingInstance (fun s => s == "b") (["a"] ++ "b" :: ["c"]) =
        some "b" ∧
      Proxy.probedInstances (fun s => s == "b") (["a"] ++ "b" :: ["c"]) =
        ["a"] ++ ["b"]) ∧
    (Proxy.proxyInfoFlow (fun _ => false) (fun _ => true) = (503, 0) ∧
      Proxy.probedInstances (fun _ => false) Proxy.INVIDIOUS_INSTANCES =
        Proxy.INVIDIOUS_INSTANCES) := by
  have h1 := c8_theorem (fun s => s == "b") (fun _ => true) ["a"] ["c"] "b"
  have h2 := c8_theorem (fun _ => false) (fun _ => true) [] [] "x"
  exact ⟨h1.1 (by decide) (by decide), h2.2 (fun i _ => rfl)⟩
